import Mathlib

/-!
Verification development for the CEOBitch order-processing pipeline.

The definitions below are a shallow embedding of the TypeScript sources:

* `src/core/storage/order-store.ts` — `OrderStore` (due-order scan, lease
  acquisition and release, report storage, the file-lock discipline);
* `src/core/autonomous/order-processor.ts` — `OrderProcessor.tick` and
  `OrderProcessor.processOrder` (claim/attempt/backoff state machine);
* `src/core/ceo-bitch/quality-evaluator.ts` — `QualityEvaluator`;
* `src/core/ceo-bitch/risk-assessor.ts` — `RiskAssessor`;
* `src/core/ceo-bitch/approval-workflow.ts` — `ApprovalWorkflow.processApproval`;
* `src/workflows/agent-creation.ts` — the shared type declarations
  (`OwnerOrder`, `ExecutionReport`, `QualityCriteria`, `RiskCheck`, ...);
* `src/config.ts` — the configuration record and its defaults.

Epoch-millisecond timestamps (`Date.now()`, `new Date()`) are embedded as
`Nat`.  JavaScript numbers used as risk values and thresholds are embedded
as `Rat`; every comparison performed on them by the embedded code paths is
exact at the constants involved (sums of 0.1/0.2/0.3/0.4 against
thresholds 0.3/0.5/0.7/0.9), so the rational semantics agrees with the
IEEE-double semantics of the source at every point evaluated here.
Asynchronous store operations are embedded as explicit state passing; the
file-lock that can time out (`acquireFileLock`) is driven by an explicit
oracle listing the outcome of each successive lock acquisition.
-/

namespace CEOBitch

/-- Status union of the `OwnerOrder` interface in `src/workflows/agent-creation.ts`:
`'pending' | 'assigned' | 'in_progress' | 'completed' | 'failed'`.
The source has no further constructor (in particular no `failed_terminal`). -/
inductive OrderStatus
  | pending
  | assigned
  | in_progress
  | completed
  | failed
deriving DecidableEq, Repr

/-- The `OwnerOrder` interface of `src/workflows/agent-creation.ts`.
`deadline` and `metadata` are opaque to every embedded code path and are
omitted; `Date` fields are epoch milliseconds (`Nat`). -/
structure OwnerOrder where
  id : String
  description : String
  createdAt : Nat
  updatedAt : Option Nat
  attemptCount : Nat
  lastError : Option String
  nextAttemptAt : Option Nat
  lockedBy : Option String
  lockedUntil : Option Nat
  status : OrderStatus
deriving DecidableEq, Repr

/-- `OrderStore.isLeaseExpired`: `!order.lockedUntil || order.lockedUntil <= now`.
A `lockedUntil` of `0` is falsy in JavaScript, hence the extra disjunct
(for `Nat` it is subsumed by `l ≤ now`, but we keep the source's shape). -/
def isLeaseExpired (order : OwnerOrder) (now : Nat) : Bool :=
  match order.lockedUntil with
  | none => true
  | some l => decide (l = 0) || decide (l ≤ now)

/-- The filter predicate of `OrderStore.getDueOrders`: not `completed`, not
`in_progress`, `nextAttemptAt ?? 0` has passed, and any lease has expired. -/
def isDueOrder (order : OwnerOrder) (now : Nat) : Bool :=
  if order.status = .completed then false
  else if order.status = .in_progress then false
  else decide (order.nextAttemptAt.getD 0 ≤ now) && isLeaseExpired order now

/-- `OrderStore.getDueOrders(now)`: full scan of the orders map with
`isDueOrder`. The orders map is embedded as a list keyed by `id`. -/
def getDueOrders (orders : List OwnerOrder) (now : Nat) : List OwnerOrder :=
  orders.filter (fun o => isDueOrder o now)

/-- Assignment `data.orders[orderId] = updated` on the embedded orders map:
replace the entry with the same id, or append if absent. -/
def storePut (orders : List OwnerOrder) (o : OwnerOrder) : List OwnerOrder :=
  if orders.any (fun x => x.id == o.id) then
    orders.map (fun x => if x.id == o.id then o else x)
  else orders ++ [o]

/-- `OrderStore.acquireLease(orderId, lockedBy, leaseMs, now)`, pure part
(the surrounding `withLock` serializes it; the lock oracle is handled at the
call sites that model exceptions).  Returns the updated orders map together
with the value returned to the caller: `null` when the order is missing, its
lease has not expired, or it is already `completed`; otherwise the record is
re-read from the store after the write (`(await this.getOrder(orderId)) ?? null`).
`wallClock` stands for the `new Date()` written into `updatedAt`. -/
def acquireLease (orders : List OwnerOrder) (orderId lockedBy : String)
    (leaseMs now wallClock : Nat) : List OwnerOrder × Option OwnerOrder :=
  match orders.find? (fun o => o.id == orderId) with
  | none => (orders, none)
  | some order =>
    if !(isLeaseExpired order now) then (orders, none)
    else if order.status = .completed then (orders, none)
    else
      let updated : OwnerOrder :=
        { order with
          status := .in_progress
          lockedBy := some lockedBy
          lockedUntil := some (now + leaseMs)
          updatedAt := some wallClock }
      let newOrders := storePut orders updated
      (newOrders, newOrders.find? (fun o => o.id == orderId))

/-- `OrderStore.releaseLease(orderId)`: clear the lease fields without
touching `status`; no-op when the order is missing. -/
def releaseLease (orders : List OwnerOrder) (orderId : String)
    (wallClock : Nat) : List OwnerOrder :=
  match orders.find? (fun o => o.id == orderId) with
  | none => orders
  | some order =>
    storePut orders
      { order with lockedBy := none, lockedUntil := none, updatedAt := some wallClock }

/-- Untyped JSON-like payloads (`output: unknown` in the sources).  `null`
covers the JavaScript `null`/`undefined` outputs the evaluators test for. -/
inductive JsonValue
  | null
  | bool (b : Bool)
  | num (n : Int)
  | str (s : String)
  | arr (elems : List JsonValue)
  | obj (fields : List (String × JsonValue))

/-- Escaping applied by `JSON.stringify` to string payloads (quotes and
backslashes; control characters do not occur in the embedded runs). -/
def jsonEscapeChar (c : Char) : String :=
  if c = '"' then "\\\"" else if c = '\\' then "\\\\" else String.singleton c

def jsonEscape (s : String) : String :=
  String.join (s.data.map jsonEscapeChar)

mutual

/-- Embedding of `JSON.stringify` on `JsonValue` payloads. -/
def jsonStringify : JsonValue → String
  | .null => "null"
  | .bool true => "true"
  | .bool false => "false"
  | .num n => toString n
  | .str s => "\"" ++ jsonEscape s ++ "\""
  | .arr elems => "[" ++ String.intercalate "," (jsonStringifyList elems) ++ "]"
  | .obj fields => "\x7b" ++ String.intercalate "," (jsonStringifyFields fields) ++ "\x7d"

def jsonStringifyList : List JsonValue → List String
  | [] => []
  | v :: vs => jsonStringify v :: jsonStringifyList vs

def jsonStringifyFields : List (String × JsonValue) → List String
  | [] => []
  | f :: fs => ("\"" ++ jsonEscape f.1 ++ "\":" ++ jsonStringify f.2) :: jsonStringifyFields fs

end

/-- The needle occurs as a contiguous run somewhere in the haystack. -/
def listIncludes (needle : List Char) : List Char → Bool
  | [] => needle.isEmpty
  | c :: rest => needle.isPrefixOf (c :: rest) || listIncludes needle rest

/-- JavaScript `String.prototype.includes`. -/
def strIncludes (s pattern : String) : Bool :=
  listIncludes pattern.data s.data

/-- JavaScript `String.prototype.toLowerCase` (ASCII, via `Char.toLower`;
kept kernel-reducible by mapping over the character list). -/
def strToLower (s : String) : String :=
  String.mk (s.data.map Char.toLower)

/-- Log level union of `ExecutionLog` in `src/workflows/agent-creation.ts`. -/
inductive LogLevel
  | debug
  | info
  | warn
  | error
deriving DecidableEq, Repr

/-- The `ExecutionLog` interface (`metadata` omitted, opaque). -/
structure ExecutionLog where
  timestamp : Nat
  level : LogLevel
  message : String
deriving DecidableEq, Repr

/-- The `ExecutionStatus` union. -/
inductive ExecutionStatus
  | success
  | failed
  | requires_approval
deriving DecidableEq, Repr

/-- The `ExecutionReport` interface.  Fields not consulted by the embedded
evaluators (`qualityScore`, `riskAssessment`, `environment`, `metadata`) are
omitted.  `agentId` is a string whose JavaScript truthiness (non-empty)
is tested by the risk assessor's timeout check. -/
structure ExecutionReport where
  id : String
  agentId : String
  orderId : String
  status : ExecutionStatus
  output : JsonValue
  logs : List ExecutionLog
  timestamp : Nat
  executionTimeMs : Nat


/-- Return value of `AutonomousOrderFlow.executeOrder` (`ampReview` omitted,
never consulted by the processor). -/
structure AutonomousOrderResult where
  orderId : String
  report : ExecutionReport
  approved : Bool
  gitCommit : Option String
  deployed : Bool


/-- The `OrderExecutionResult` record persisted by `OrderStore.setReport`. -/
structure OrderExecutionResult where
  approved : Bool
  report : Option ExecutionReport
  approvalRecordId : Option String
  gitCommit : Option String
  deployed : Option Bool


/-- `OrderProcessorOptions` of `order-processor.ts`. -/
structure OrderProcessorOptions where
  pollIntervalMs : Nat
  leaseMs : Nat
  retryBaseMs : Nat
  retryMaxMs : Nat
deriving DecidableEq, Repr

/-- The `defaultOptions` constant: poll 250ms, lease 30s, retry base 1.5s,
retry cap 30s. -/
def defaultOptions : OrderProcessorOptions :=
  { pollIntervalMs := 250, leaseMs := 30000, retryBaseMs := 1500, retryMaxMs := 30000 }

/-- Outcome of one executor invocation: the resolved `AutonomousOrderResult`,
or the rejection caught by `processOrder`'s `catch` (its `message`). -/
inductive ExecOutcome
  | success (result : AutonomousOrderResult)
  | failure (message : String)

/-- Store state threaded through the effectful embedding: the two maps of
`orders.json` plus an oracle listing the outcome of each successive
file-lock acquisition (`true` = acquired, `false` = 5s timeout).  An empty
oracle means every remaining acquisition succeeds. -/
structure StoreState where
  orders : List OwnerOrder
  reports : List (String × OrderExecutionResult)
  locksOk : List Bool

/-- Consume the next lock-acquisition outcome from the oracle. -/
def popLock (st : StoreState) : Bool × StoreState :=
  match st.locksOk with
  | [] => (true, st)
  | b :: rest => (b, { st with locksOk := rest })

/-- Message of the error thrown by `acquireFileLock` on timeout. -/
def lockTimeoutMsg : String := "Order store lock timeout"

/-- `OrderStore.updateOrder` under `withLock`: may throw the lock timeout,
in which case nothing is written. -/
def updateOrderE (st : StoreState) (o : OwnerOrder) : StoreState × Option String :=
  let p := popLock st
  if p.1 then ({ p.2 with orders := storePut p.2.orders o }, none)
  else (p.2, some lockTimeoutMsg)

/-- Assignment `data.reports[orderId] = report` on the embedded reports map. -/
def reportsPut (reports : List (String × OrderExecutionResult)) (orderId : String)
    (r : OrderExecutionResult) : List (String × OrderExecutionResult) :=
  if reports.any (fun x => x.1 == orderId) then
    reports.map (fun x => if x.1 == orderId then (orderId, r) else x)
  else reports ++ [(orderId, r)]

/-- `OrderStore.setReport` under `withLock`. -/
def setReportE (st : StoreState) (orderId : String) (r : OrderExecutionResult) :
    StoreState × Option String :=
  let p := popLock st
  if p.1 then ({ p.2 with reports := reportsPut p.2.reports orderId r }, none)
  else (p.2, some lockTimeoutMsg)

/-- `OrderStore.acquireLease` with the lock oracle: either throws the lock
timeout (`Except.error`), or performs the pure check-and-set `acquireLease`. -/
def acquireLeaseE (st : StoreState) (orderId lockedBy : String)
    (leaseMs now wallClock : Nat) : StoreState × Except String (Option OwnerOrder) :=
  let p := popLock st
  if p.1 then
    let r := acquireLease p.2.orders orderId lockedBy leaseMs now wallClock
    ({ p.2 with orders := r.1 }, .ok r.2)
  else (p.2, .error lockTimeoutMsg)

/-- The `startedOrder` written by `OrderProcessor.processOrder` before the
executor runs: attempt counter bumped, `lastError` cleared, `updatedAt`
bumped (status stays `in_progress` from the lease). -/
def startedOrderOf (order : OwnerOrder) (wallClock : Nat) : OwnerOrder :=
  { order with
    attemptCount := order.attemptCount + 1
    lastError := none
    updatedAt := some wallClock }

/-- The `completedOrder` written on executor success. -/
def completedOrderOf (started : OwnerOrder) (wallClock : Nat) : OwnerOrder :=
  { started with
    status := .completed
    lockedBy := none
    lockedUntil := none
    nextAttemptAt := none
    updatedAt := some wallClock }

/-- The backoff computed on executor failure:
`Math.min(retryBaseMs * Math.pow(2, Math.max(0, attemptCount - 1)), retryMaxMs)`.
`Nat` subtraction truncates at zero exactly like `Math.max(0, · - 1)`. -/
def backoffMsOf (opts : OrderProcessorOptions) (attemptCount : Nat) : Nat :=
  min (opts.retryBaseMs * 2 ^ (attemptCount - 1)) opts.retryMaxMs

/-- The `failedOrder` written on executor failure: scheduled retry with
exponential backoff, lease fields cleared. -/
def failedOrderOf (opts : OrderProcessorOptions) (started : OwnerOrder)
    (message : String) (now wallClock : Nat) : OwnerOrder :=
  { started with
    status := .failed
    lastError := some message
    nextAttemptAt := some (now + backoffMsOf opts started.attemptCount)
    lockedBy := none
    lockedUntil := none
    updatedAt := some wallClock }

/-- The report record persisted by the processor on success. -/
def reportOf (result : AutonomousOrderResult) : OrderExecutionResult :=
  { approved := result.approved
    report := some result.report
    approvalRecordId := none
    gitCommit := result.gitCommit
    deployed := some result.deployed }

/-- `OrderProcessor.processOrder`: persist the started order (outside the
`try`, so a store throw propagates), invoke the executor, persist either the
completed order plus its report or the failed order with backoff.  The
returned `Option String` is an exception escaping `processOrder` (only store
lock timeouts can escape; executor failures are caught by the `catch`).
`nowFail` is the `Date.now()` read in the catch block, `wallClock` the
`new Date()` timestamps. -/
def processOrderE (opts : OrderProcessorOptions) (exec : OwnerOrder → ExecOutcome)
    (order : OwnerOrder) (nowFail wallClock : Nat) (st : StoreState) :
    StoreState × Option String :=
  let started := startedOrderOf order wallClock
  match updateOrderE st started with
  | (st1, some e) => (st1, some e)
  | (st1, none) =>
    let tryRes : StoreState × Option String :=
      match exec started with
      | .success result =>
        match updateOrderE st1 (completedOrderOf started wallClock) with
        | (st2, some e) => (st2, some e)
        | (st2, none) => setReportE st2 order.id (reportOf result)
      | .failure message => (st1, some message)
    match tryRes with
    | (st2, none) => (st2, none)
    | (st2, some message) =>
      updateOrderE st2 (failedOrderOf opts started message nowFail wallClock)

/-- The `for (const order of dueOrders)` loop inside `OrderProcessor.tick`:
skip orders whose lease is lost (`null`), process leased orders, and abort
the whole loop on the first exception (the loop body is not individually
guarded — the single `try` wrapping the loop is in `tick`). -/
def tickLoop (opts : OrderProcessorOptions) (workerId : String)
    (exec : OwnerOrder → ExecOutcome) (now nowFail wallClock : Nat) :
    List OwnerOrder → StoreState → StoreState × Option String
  | [], st => (st, none)
  | order :: rest, st =>
    match acquireLeaseE st order.id workerId opts.leaseMs now wallClock with
    | (st1, .error e) => (st1, some e)
    | (st1, .ok none) => tickLoop opts workerId exec now nowFail wallClock rest st1
    | (st1, .ok (some leased)) =>
      match processOrderE opts exec leased nowFail wallClock st1 with
      | (st2, none) => tickLoop opts workerId exec now nowFail wallClock rest st2
      | (st2, some e) => (st2, some e)

/-- One `OrderProcessor.tick` (the re-entrancy guard is outside this model:
a single tick is embedded).  `now = Date.now()` is read once; the due scan
is an unlocked read; the surrounding `try/catch` swallows any exception,
leaving the store as it was at the point of the throw. -/
def tick (opts : OrderProcessorOptions) (workerId : String)
    (exec : OwnerOrder → ExecOutcome) (now nowFail wallClock : Nat)
    (st : StoreState) : StoreState :=
  let due := getDueOrders st.orders now
  (tickLoop opts workerId exec now nowFail wallClock due st).1

/-- The `QualityCriteria` interface of `src/workflows/agent-creation.ts`.
`requiredFields` is non-optional in the interface (the evaluator's truthiness
guard on it is therefore always taken); the other two requirement lists are
optional. -/
structure QualityCriteria where
  minScore : Int
  requiredFields : List String
  formatRequirements : Option (List (String × JsonValue))
  contentRequirements : Option (List String)

/-- Return type of `QualityEvaluator.evaluateQuality`. -/
structure QualityEvaluation where
  score : Int
  meetsCriteria : Bool
  feedback : List String
  missingFields : List String
deriving DecidableEq, Repr

/-- `QualityEvaluator.extractFields`: non-objects and `null` have no fields;
an array defers to its first element (empty array: no fields); an object
yields its keys. -/
def extractFields : JsonValue → List String
  | .obj fields => fields.map (fun f => f.1)
  | .arr [] => []
  | .arr (v :: _) => extractFields v
  | _ => []

/-- JavaScript `typeof output === 'object' && output !== null` (arrays are
objects; `JsonValue.null` plays the role of `null`/`undefined`). -/
def isObjectNonNull : JsonValue → Bool
  | .arr _ => true
  | .obj _ => true
  | _ => false

/-- The `key in outputObj` test of `checkFormat` (on an array, index keys
and `length` are own properties). -/
def jsonHasKey : JsonValue → String → Bool
  | .obj fields, key => fields.any (fun f => f.1 == key)
  | .arr elems, key =>
    key == "length" ||
      (match key.toNat? with
       | some i => decide (i < elems.length)
       | none => false)
  | _, _ => false

/-- The `outputObj[key]` read of `checkFormat` (only evaluated on keys that
passed `jsonHasKey`). -/
def jsonGet : JsonValue → String → JsonValue
  | .obj fields, key =>
    (match fields.find? (fun f => f.1 == key) with
     | some f => f.2
     | none => .null)
  | .arr elems, key =>
    if key == "length" then .num elems.length
    else
      (match key.toNat? with
       | some i => elems.getD i .null
       | none => .null)
  | _, _ => .null

/-- The per-key type test of `checkFormat`: `true` when the declared
expected type is violated by the value (unknown expected types never
produce an error). -/
def formatTypeError (expected : String) (value : JsonValue) : Bool :=
  if expected == "string" then (match value with | .str _ => false | _ => true)
  else if expected == "number" then (match value with | .num _ => false | _ => true)
  else if expected == "boolean" then (match value with | .bool _ => false | _ => true)
  else if expected == "object" then (match value with | .obj _ => false | _ => true)
  else if expected == "array" then (match value with | .arr _ => false | _ => true)
  else false

/-- `QualityEvaluator.checkFormat`. -/
def checkFormat (output : JsonValue) (requirements : List (String × JsonValue)) :
    List String :=
  if !(isObjectNonNull output) then ["Output must be an object"]
  else
    requirements.foldl
      (fun errors kv =>
        if !(jsonHasKey output kv.1) then
          errors ++ ["Format requirement not met: missing field " ++ kv.1]
        else
          match kv.2 with
          | .str expected =>
            if formatTypeError expected (jsonGet output kv.1) then
              errors ++ ["Format requirement not met: " ++ kv.1 ++ " must be " ++ expected]
            else errors
          | _ => errors)
      []

/-- `QualityEvaluator.checkContent`: keyword search in the lower-cased
serialized output. -/
def checkContent (output : JsonValue) (requirements : List String) : List String :=
  let outputStr := strToLower (jsonStringify output)
  requirements.foldl
    (fun errors requirement =>
      if !(strIncludes outputStr (strToLower requirement)) then
        errors ++ ["Content requirement not met: missing \"" ++ requirement ++ "\""]
      else errors)
    []

/-- Body of the `for (const field of criteria.requiredFields)` loop of
`evaluateQuality`, on the accumulator (score, feedback, missingFields):
absent fields cost 10 points and are recorded. -/
def requiredFieldStep (reportFields : List String)
    (acc : Int × List String × List String) (field : String) :
    Int × List String × List String :=
  if reportFields.contains field then acc
  else (acc.1 - 10, acc.2.1 ++ ["Missing required field: " ++ field], acc.2.2 ++ [field])

/-- The format errors computed by `evaluateQuality` when the optional
`formatRequirements` are present (the truthiness guard around `checkFormat`). -/
def formatErrorsOf (report : ExecutionReport) (criteria : QualityCriteria) :
    List String :=
  match criteria.formatRequirements with
  | none => []
  | some reqs => checkFormat report.output reqs

/-- The content errors computed by `evaluateQuality` when the optional
`contentRequirements` are present (the truthiness guard around `checkContent`). -/
def contentErrorsOf (report : ExecutionReport) (criteria : QualityCriteria) :
    List String :=
  match criteria.contentRequirements with
  | none => []
  | some reqs => checkContent report.output reqs

/-- `QualityEvaluator.evaluateQuality`: score starts at 100; 10 points per
missing required field, 5 per format error, 5 per content error, 15 per
error-level log line; clamp to `[0, 100]`; `meetsCriteria = score >= minScore`. -/
def evaluateQuality (report : ExecutionReport) (criteria : QualityCriteria) :
    QualityEvaluation :=
  let reportFields := extractFields report.output
  let step1 : Int × List String × List String :=
    criteria.requiredFields.foldl (requiredFieldStep reportFields) (100, [], [])
  let score1 := step1.1
  let feedback1 := step1.2.1
  let missingFields := step1.2.2
  let formatErrors := formatErrorsOf report criteria
  let score2 := if formatErrors.length > 0 then score1 - (formatErrors.length : Int) * 5 else score1
  let feedback2 := if formatErrors.length > 0 then feedback1 ++ formatErrors else feedback1
  let contentErrors := contentErrorsOf report criteria
  let score3 := if contentErrors.length > 0 then score2 - (contentErrors.length : Int) * 5 else score2
  let feedback3 := if contentErrors.length > 0 then feedback2 ++ contentErrors else feedback2
  let errorLogs := report.logs.filter (fun log => decide (log.level = .error))
  let score4 := if errorLogs.length > 0 then score3 - (errorLogs.length : Int) * 15 else score3
  let feedback4 :=
    if errorLogs.length > 0 then
      feedback3 ++ ["Execution had " ++ toString errorLogs.length ++ " error(s)"]
    else feedback3
  let score5 : Int := max 0 (min 100 score4)
  let meets := decide (score5 ≥ criteria.minScore)
  let feedback5 :=
    if meets then feedback4
    else feedback4 ++
      ["Quality score " ++ toString score5 ++ " is below minimum " ++ toString criteria.minScore]
  { score := score5, meetsCriteria := meets, feedback := feedback5, missingFields := missingFields }

/-- Severity scale shared by risk factors and the overall assessment. -/
inductive Severity
  | low
  | medium
  | high
  | critical
deriving DecidableEq, Repr

/-- The `RiskFactor` interface (`evidence` is the constant `null` in
`runRiskCheck` and is omitted). -/
structure RiskFactor where
  type : String
  severity : Severity
  description : String
deriving DecidableEq, Repr

/-- The `checkType` union of the `RiskCheck` interface. -/
inductive RiskCheckType
  | pattern
  | heuristic
  | aiAssessment
  | custom
deriving DecidableEq, Repr

/-- The `action` union of the `RiskCheck` interface (never consulted by the
assessor). -/
inductive RiskAction
  | warn
  | block
  | require_approval
deriving DecidableEq, Repr

/-- The `RiskCheck` interface.  `threshold` is a JavaScript number, embedded
as `Rat`. -/
structure RiskCheck where
  id : String
  name : String
  checkType : RiskCheckType
  threshold : Rat
  action : RiskAction
  description : String

/-- The `qualityStandards` section of `AppConfig` in `src/config.ts`. -/
structure QualityStandardsConfig where
  minQualityScore : Int
  requireHumanApprovalForHighRisk : Bool
  autoApproveLowRisk : Bool

/-- The `riskThresholds` section of `AppConfig`. -/
structure RiskThresholdsConfig where
  low : Rat
  medium : Rat
  high : Rat
  critical : Rat

/-- The slice of `AppConfig` consulted by the decision engine. -/
structure AppConfig where
  qualityStandards : QualityStandardsConfig
  riskThresholds : RiskThresholdsConfig

/-- `loadConfig()` with no environment overrides: `MIN_QUALITY_SCORE=70`,
`REQUIRE_HUMAN_APPROVAL_FOR_HIGH_RISK=true`, `AUTO_APPROVE_LOW_RISK=false`,
risk thresholds 0.3 / 0.5 / 0.7 / 0.9. -/
def defaultConfig : AppConfig :=
  { qualityStandards :=
      { minQualityScore := 70
        requireHumanApprovalForHighRisk := true
        autoApproveLowRisk := false }
    riskThresholds :=
      { low := 3/10, medium := 1/2, high := 7/10, critical := 9/10 } }

/-- `RiskAssessor.checkPattern`. -/
def checkPattern (report : ExecutionReport) (check : RiskCheck) : Bool :=
  let outputStr := strToLower (jsonStringify report.output)
  let checkNameLower := strToLower check.name
  if strIncludes checkNameLower "error" || strIncludes checkNameLower "exception" then
    report.logs.any (fun log => decide (log.level = .error))
  else if strIncludes checkNameLower "timeout" then
    decide (report.executionTimeMs > (if report.agentId == "" then 60000 else 300000))
  else if strIncludes checkNameLower "sensitive" then
    ["password", "api_key", "secret", "token", "credential"].any
      (fun p => strIncludes outputStr p)
  else false

/-- `RiskAssessor.checkHeuristic`. -/
def checkHeuristic (report : ExecutionReport) (check : RiskCheck) : Bool :=
  let checkNameLower := strToLower check.name
  if strIncludes checkNameLower "long_execution" then
    decide (report.executionTimeMs > 60000)
  else if strIncludes checkNameLower "many_errors" then
    decide ((report.logs.filter (fun log => decide (log.level = .error))).length > 3)
  else if strIncludes checkNameLower "unexpected_output" then
    (match report.output with | .null => true | _ => false)
  else false

/-- `RiskAssessor.checkCustom`: unimplemented, always `false`. -/
def checkCustom (_report : ExecutionReport) (_check : RiskCheck) : Bool :=
  false

/-- `RiskAssessor.calculateRiskValue`: additive risk score in `[0, 1]`. -/
def calculateRiskValue (report : ExecutionReport) : Rat :=
  let v1 : Rat := if report.logs.any (fun log => decide (log.level = .error)) then 3/10 else 0
  let v2 : Rat := v1 + (if report.executionTimeMs > 300000 then 2/10 else 0)
  let v3 : Rat := v2 + (if (match report.output with | .null => true | _ => false) then 4/10 else 0)
  let v4 : Rat := v3 + (if (jsonStringify report.output).length > 1000000 then 1/10 else 0)
  min 1 v4

/-- `RiskAssessor.getSeverityFromValue`: classify against the configured
thresholds. -/
def getSeverityFromValue (cfg : AppConfig) (value : Rat) : Severity :=
  if value ≥ cfg.riskThresholds.critical then .critical
  else if value ≥ cfg.riskThresholds.high then .high
  else if value ≥ cfg.riskThresholds.medium then .medium
  else .low

/-- `RiskAssessor.runRiskCheck`: a finding is produced when the check is
detected and the risk value reaches the check's threshold. -/
def runRiskCheck (cfg : AppConfig) (report : ExecutionReport) (check : RiskCheck) :
    Option RiskFactor :=
  let detected :=
    match check.checkType with
    | .pattern => checkPattern report check
    | .heuristic => checkHeuristic report check
    | .aiAssessment => false
    | .custom => checkCustom report check
  if detected then
    let riskValue := calculateRiskValue report
    if riskValue ≥ check.threshold then
      some { type := check.name
             severity := getSeverityFromValue cfg riskValue
             description := check.description }
    else none
  else none

/-- `RiskAssessor.calculateOverallRisk`: highest severity present among the
findings, `low` when there are none. -/
def calculateOverallRisk (factors : List RiskFactor) : Severity :=
  if factors.length = 0 then .low
  else if factors.any (fun f => decide (f.severity = .critical)) then .critical
  else if factors.any (fun f => decide (f.severity = .high)) then .high
  else if factors.any (fun f => decide (f.severity = .medium)) then .medium
  else .low

/-- `RiskAssessor.generateRecommendations`. -/
def generateRecommendations (factors : List RiskFactor) (overallRisk : Severity) :
    List String :=
  let recs0 : List String :=
    if overallRisk = .critical ∨ overallRisk = .high then
      ["Requires manual review before deployment", "Consider running additional tests"]
    else []
  let recs1 :=
    if (factors.filter (fun f => strIncludes f.type "error")).length > 0 then
      recs0 ++ ["Review and fix errors before proceeding"]
    else recs0
  let recs2 :=
    if (factors.filter (fun f => strIncludes f.type "timeout")).length > 0 then
      recs1 ++ ["Optimize execution time or increase timeout limits"]
    else recs1
  let recs3 :=
    if (factors.filter (fun f => strIncludes f.type "sensitive")).length > 0 then
      recs2 ++ ["Review output for sensitive information leakage"]
    else recs2
  recs3

/-- Return type of `RiskAssessor.assessRisk`. -/
structure RiskAssessment where
  overallRisk : Severity
  riskFactors : List RiskFactor
  recommendations : List String
  requiresHumanReview : Bool
deriving DecidableEq, Repr

/-- `RiskAssessor.assessRisk`. -/
def assessRisk (cfg : AppConfig) (report : ExecutionReport)
    (riskChecks : List RiskCheck) : RiskAssessment :=
  let riskFactors :=
    riskChecks.foldl
      (fun acc check =>
        match runRiskCheck cfg report check with
        | some factor => acc ++ [factor]
        | none => acc)
      []
  let overallRisk := calculateOverallRisk riskFactors
  let recommendations := generateRecommendations riskFactors overallRisk
  let requiresHumanReview :=
    decide (overallRisk = .high) || decide (overallRisk = .critical) ||
      riskFactors.any (fun f => decide (f.severity = .critical))
  { overallRisk := overallRisk
    riskFactors := riskFactors
    recommendations := recommendations
    requiresHumanReview := requiresHumanReview }

/-- The `ApprovalDecision` union. -/
inductive ApprovalDecision
  | approved
  | rejected
  | requires_improvement
deriving DecidableEq, Repr

/-- The parts of `ApprovalWorkflow.processApproval`'s result consulted by the
claims: the decision together with the two evaluations it was derived from
(the stored `ApprovalRecord`'s uuid/timestamp/feedback-string side effects
are not modelled). -/
structure ApprovalOutcome where
  decision : ApprovalDecision
  qualityEvaluation : QualityEvaluation
  riskAssessment : RiskAssessment

/-- The decision chain of `ApprovalWorkflow.processApproval` (named so the
rules can be reasoned about separately): human override; auto-approve (low
risk, criteria met, `autoApproveLowRisk`); unmet quality →
`requires_improvement`; human review or high/critical risk →
`requires_improvement`; criteria met and low risk → `approved`; default
`requires_improvement`. -/
def approvalDecision (cfg : AppConfig) (qualityEvaluation : QualityEvaluation)
    (riskAssessment : RiskAssessment) (humanDecision : Option ApprovalDecision) :
    ApprovalDecision :=
  match humanDecision with
  | some d => d
  | none =>
    if cfg.qualityStandards.autoApproveLowRisk &&
        decide (riskAssessment.overallRisk = .low) && qualityEvaluation.meetsCriteria then
      .approved
    else if !qualityEvaluation.meetsCriteria then
      .requires_improvement
    else if riskAssessment.requiresHumanReview ||
        decide (riskAssessment.overallRisk = .critical) ||
        decide (riskAssessment.overallRisk = .high) then
      .requires_improvement
    else if qualityEvaluation.meetsCriteria &&
        decide (riskAssessment.overallRisk = .low) then
      .approved
    else
      .requires_improvement

/-- `ApprovalWorkflow.processApproval`: evaluate quality and risk, then run
the `approvalDecision` chain. -/
def processApproval (cfg : AppConfig) (report : ExecutionReport)
    (qualityCriteria : QualityCriteria) (riskChecks : List RiskCheck)
    (humanDecision : Option ApprovalDecision) : ApprovalOutcome :=
  let qualityEvaluation := evaluateQuality report qualityCriteria
  let riskAssessment := assessRisk cfg report riskChecks
  { decision := approvalDecision cfg qualityEvaluation riskAssessment humanDecision
    qualityEvaluation := qualityEvaluation
    riskAssessment := riskAssessment }

/-- Numeric rank of a severity, used to state "maximum severity" claims. -/
def sevRank : Severity → Nat
  | .low => 0
  | .medium => 1
  | .high => 2
  | .critical => 3

/-- The record written by `acquireLease` on success (named for the lemmas;
definitionally the `updated` record inside `acquireLease`). -/
def leaseUpdate (order : OwnerOrder) (holder : String) (leaseMs now wc : Nat) :
    OwnerOrder :=
  { order with
    status := .in_progress
    lockedBy := some holder
    lockedUntil := some (now + leaseMs)
    updatedAt := some wc }

/-- Report whose output is the empty object (scenario of the quality claim). -/
def emptyOutputReport : ExecutionReport :=
  { id := "r1", agentId := "agent-1", orderId := "o1", status := .success,
    output := .obj [], logs := [], timestamp := 0, executionTimeMs := 100 }

/-- Policy `minScore 90`, `requiredFields [a, b, c]`. -/
def strictCriteria : QualityCriteria :=
  { minScore := 90, requiredFields := ["a", "b", "c"],
    formatRequirements := none, contentRequirements := none }

/-- Report with one error-level log line and a 400s run: quality 85, risk
value 0.3 + 0.2 = 0.5 (medium at the default thresholds). -/
def erroredReport : ExecutionReport :=
  { id := "r2", agentId := "agent-1", orderId := "o2", status := .success,
    output := .obj [("result", .str "ok")],
    logs := [{ timestamp := 0, level := .error, message := "transient glitch" }],
    timestamp := 0, executionTimeMs := 400000 }

/-- Policy `minScore 70`, `requiredFields [result]`. -/
def okCriteria : QualityCriteria :=
  { minScore := 70, requiredFields := ["result"],
    formatRequirements := none, contentRequirements := none }

/-- Pattern risk check whose name contains `error`. -/
def errorRiskCheck : RiskCheck :=
  { id := "c1", name := "error_check", checkType := .pattern, threshold := 1/10,
    action := .warn, description := "errors in execution logs" }

/-- Clean report: required field present, no logs, fast run. -/
def cleanReport : ExecutionReport :=
  { id := "r3", agentId := "agent-1", orderId := "o3", status := .success,
    output := .obj [("result", .str "ok")], logs := [], timestamp := 0,
    executionTimeMs := 100 }

/-- An order left `in_progress` by a worker that died: lease expired at 100. -/
def crashedOrder : OwnerOrder :=
  { id := "A", description := "crashed mid-execution", createdAt := 0,
    updatedAt := some 50, attemptCount := 3, lastError := none,
    nextAttemptAt := none, lockedBy := some "worker-1", lockedUntil := some 100,
    status := .in_progress }

/-- A fresh pending order. -/
def orderA : OwnerOrder :=
  { id := "A", description := "first", createdAt := 0, updatedAt := none,
    attemptCount := 0, lastError := none, nextAttemptAt := none,
    lockedBy := none, lockedUntil := none, status := .pending }

/-- A second fresh pending order. -/
def orderB : OwnerOrder :=
  { id := "B", description := "second", createdAt := 0, updatedAt := none,
    attemptCount := 0, lastError := none, nextAttemptAt := none,
    lockedBy := none, lockedUntil := none, status := .pending }

/-- A successful executor result. -/
def sampleResult : AutonomousOrderResult :=
  { orderId := "B", report := cleanReport, approved := true, gitCommit := none,
    deployed := false }

/-- Report whose output is the empty array. -/
def arrayOutputReport : ExecutionReport :=
  { id := "r4", agentId := "agent-1", orderId := "o4", status := .success,
    output := .arr [], logs := [], timestamp := 0, executionTimeMs := 100 }

/-- An order about to make its 10th attempt (`maxAttempts` default of the
written product requirements), currently leased. -/
def exhaustedOrder : OwnerOrder :=
  { id := "X", description := "always fails", createdAt := 0, updatedAt := some 1,
    attemptCount := 9, lastError := some "boom", nextAttemptAt := some 900,
    lockedBy := some "w", lockedUntil := some 31000, status := .in_progress }

theorem find?_storePut_eq (orders : List OwnerOrder) (o : OwnerOrder) (oid : String)
    (hid : o.id = oid) (h : orders.any (fun x => x.id == oid) = true) :
    (storePut orders o).find? (fun x => x.id == oid) = some o := by
  subst hid
  unfold storePut
  rw [if_pos h]
  induction orders with
  | nil => simp at h
  | cons x xs ih =>
    by_cases hx : x.id = o.id
    · rw [List.map_cons, List.find?_cons_of_pos]
      · simp [hx]
      · simp [hx]
    · rw [List.map_cons, List.find?_cons_of_neg]
      · apply ih
        simp only [List.any_cons] at h
        simpa [hx] using h
      · simp [hx]

theorem acquireLease_success (orders : List OwnerOrder) (orderId holder : String)
    (leaseMs now wc : Nat) (order : OwnerOrder)
    (hfind : orders.find? (fun o => o.id == orderId) = some order)
    (hexp : isLeaseExpired order now = true)
    (hcomp : order.status ≠ .completed) :
    acquireLease orders orderId holder leaseMs now wc =
      (storePut orders (leaseUpdate order holder leaseMs now wc),
       some (leaseUpdate order holder leaseMs now wc)) := by
  have hid : order.id = orderId := by
    have := List.find?_some hfind
    simpa using this
  have hmem : order ∈ orders := List.mem_of_find?_eq_some hfind
  have hany : orders.any (fun x => x.id == orderId) = true :=
    List.any_eq_true.mpr ⟨order, hmem, by simp [hid]⟩
  have hput := find?_storePut_eq orders (leaseUpdate order holder leaseMs now wc)
    orderId hid hany
  unfold acquireLease
  rw [hfind]
  simp only [hexp, Bool.not_true, Bool.false_eq_true, if_false, if_neg hcomp]
  rw [Prod.ext_iff]
  exact ⟨rfl, hput⟩

theorem acquireLease_missing (orders : List OwnerOrder) (orderId holder : String)
    (leaseMs now wc : Nat)
    (hfind : orders.find? (fun o => o.id == orderId) = none) :
    acquireLease orders orderId holder leaseMs now wc = (orders, none) := by
  unfold acquireLease
  rw [hfind]

theorem acquireLease_not_expired (orders : List OwnerOrder) (orderId holder : String)
    (leaseMs now wc : Nat) (order : OwnerOrder)
    (hfind : orders.find? (fun o => o.id == orderId) = some order)
    (hexp : isLeaseExpired order now = false) :
    acquireLease orders orderId holder leaseMs now wc = (orders, none) := by
  unfold acquireLease
  rw [hfind]
  simp [hexp]

theorem acquireLease_completed (orders : List OwnerOrder) (orderId holder : String)
    (leaseMs now wc : Nat) (order : OwnerOrder)
    (hfind : orders.find? (fun o => o.id == orderId) = some order)
    (hcomp : order.status = .completed) :
    acquireLease orders orderId holder leaseMs now wc = (orders, none) := by
  unfold acquireLease
  rw [hfind]
  by_cases hexp : isLeaseExpired order now
  · simp [hexp, hcomp]
  · simp only [Bool.not_eq_true] at hexp
    simp [hexp]

theorem isLeaseExpired_eq_false_iff (order : OwnerOrder) (now : Nat) :
    isLeaseExpired order now = false ↔
      ∃ l, order.lockedUntil = some l ∧ now < l := by
  cases h : order.lockedUntil with
  | none => simp [isLeaseExpired, h]
  | some l =>
    simp only [isLeaseExpired, h, Bool.or_eq_false_iff, decide_eq_false_iff_not,
      Option.some.injEq]
    constructor
    · rintro ⟨h0, hle⟩
      exact ⟨l, rfl, by omega⟩
    · rintro ⟨m, hm, hlt⟩
      cases hm
      omega

theorem requiredFields_foldl (fields : List String) (reqs : List String)
    (acc : Int × List String × List String) :
    reqs.foldl (requiredFieldStep fields) acc =
      (acc.1 - 10 * ((reqs.filter (fun f => !(fields.contains f))).length : Int),
       acc.2.1 ++ (reqs.filter (fun f => !(fields.contains f))).map
         (fun f => "Missing required field: " ++ f),
       acc.2.2 ++ reqs.filter (fun f => !(fields.contains f))) := by
  induction reqs generalizing acc with
  | nil => simp
  | cons r rs ih =>
    by_cases hr : r ∈ fields
    · simp [List.foldl_cons, requiredFieldStep, hr, ih]
    · have hstep : requiredFieldStep fields acc r =
        (acc.1 - 10, acc.2.1 ++ ["Missing required field: " ++ r], acc.2.2 ++ [r]) := by
        simp [requiredFieldStep, hr]
      have hfilter : (r :: rs).filter (fun f => !(fields.contains f)) =
          r :: rs.filter (fun f => !(fields.contains f)) := by
        simp [List.filter_cons, hr]
      rw [List.foldl_cons, hstep, ih, hfilter]
      refine Prod.ext_iff.mpr ⟨?_, Prod.ext_iff.mpr ⟨?_, ?_⟩⟩
      · simp only [List.length_cons]
        push_cast
        ring
      · simp
      · simp

theorem any_critical_overallRisk (factors : List RiskFactor)
    (h : factors.any (fun f => decide (f.severity = .critical)) = true) :
    calculateOverallRisk factors = .critical := by
  have hne : factors ≠ [] := by
    rcases List.any_eq_true.mp h with ⟨f, hf, _⟩
    exact List.ne_nil_of_mem hf
  have h0 : ¬(factors.length = 0) := by
    simpa [List.length_eq_zero] using hne
  simp [calculateOverallRisk, h0, h]

theorem no_critical_of_overallRisk_ne (factors : List RiskFactor)
    (h : calculateOverallRisk factors ≠ .critical) :
    factors.any (fun f => decide (f.severity = .critical)) = false := by
  by_cases hc : factors.any (fun f => decide (f.severity = .critical)) = true
  · exact absurd (any_critical_overallRisk factors hc) h
  · simpa using hc

theorem sevRank_le_three (s : Severity) : sevRank s ≤ 3 := by
  cases s <;> simp [sevRank]

theorem sevRank_le_two_of_ne_critical (s : Severity) (h : s ≠ .critical) :
    sevRank s ≤ 2 := by
  cases s with
  | critical => exact absurd rfl h
  | low => simp [sevRank]
  | medium => simp [sevRank]
  | high => simp [sevRank]

theorem sevRank_le_one_of_ne (s : Severity) (hc : s ≠ .critical) (hh : s ≠ .high) :
    sevRank s ≤ 1 := by
  cases s with
  | critical => exact absurd rfl hc
  | high => exact absurd rfl hh
  | low => simp [sevRank]
  | medium => simp [sevRank]

theorem sev_eq_low_of_ne (s : Severity) (hc : s ≠ .critical) (hh : s ≠ .high)
    (hm : s ≠ .medium) : s = .low := by
  cases s with
  | critical => exact absurd rfl hc
  | high => exact absurd rfl hh
  | medium => exact absurd rfl hm
  | low => rfl

theorem overallRisk_upper (factors : List RiskFactor) :
    ∀ f ∈ factors, sevRank f.severity ≤ sevRank (calculateOverallRisk factors) := by
  intro f hf
  by_cases h0 : factors.length = 0
  · rw [List.length_eq_zero] at h0
    subst h0
    simp at hf
  · by_cases hc : factors.any (fun f => decide (f.severity = .critical)) = true
    · rw [any_critical_overallRisk factors hc]
      have := sevRank_le_three f.severity
      simpa [sevRank] using this
    · have hc' : factors.any (fun f => decide (f.severity = .critical)) = false := by
        simpa using hc
      have hfc : f.severity ≠ .critical := fun heq =>
        hc (List.any_eq_true.mpr ⟨f, hf, by simp [heq]⟩)
      by_cases hh : factors.any (fun f => decide (f.severity = .high)) = true
      · have hov : calculateOverallRisk factors = .high := by
          simp [calculateOverallRisk, h0, hc', hh]
        rw [hov]
        have := sevRank_le_two_of_ne_critical f.severity hfc
        simpa [sevRank] using this
      · have hh' : factors.any (fun f => decide (f.severity = .high)) = false := by
          simpa using hh
        have hfh : f.severity ≠ .high := fun heq =>
          hh (List.any_eq_true.mpr ⟨f, hf, by simp [heq]⟩)
        by_cases hm : factors.any (fun f => decide (f.severity = .medium)) = true
        · have hov : calculateOverallRisk factors = .medium := by
            simp [calculateOverallRisk, h0, hc', hh', hm]
          rw [hov]
          have := sevRank_le_one_of_ne f.severity hfc hfh
          simpa [sevRank] using this
        · have hfm : f.severity ≠ .medium := fun heq =>
            hm (List.any_eq_true.mpr ⟨f, hf, by simp [heq]⟩)
          rw [sev_eq_low_of_ne f.severity hfc hfh hfm]
          exact Nat.zero_le _

theorem overallRisk_attained (factors : List RiskFactor) :
    calculateOverallRisk factors = .low ∨
      ∃ f ∈ factors, f.severity = calculateOverallRisk factors := by
  by_cases h0 : factors.length = 0
  · left
    rw [List.length_eq_zero] at h0
    subst h0
    simp [calculateOverallRisk]
  · by_cases hc : factors.any (fun f => decide (f.severity = .critical)) = true
    · right
      rcases List.any_eq_true.mp hc with ⟨f, hf, hsev⟩
      refine ⟨f, hf, ?_⟩
      rw [any_critical_overallRisk factors hc]
      simpa using hsev
    · have hc' : factors.any (fun f => decide (f.severity = .critical)) = false := by
        simpa using hc
      by_cases hh : factors.any (fun f => decide (f.severity = .high)) = true
      · right
        rcases List.any_eq_true.mp hh with ⟨f, hf, hsev⟩
        have hov : calculateOverallRisk factors = .high := by
          simp [calculateOverallRisk, h0, hc', hh]
        rw [hov]
        exact ⟨f, hf, by simpa using hsev⟩
      · have hh' : factors.any (fun f => decide (f.severity = .high)) = false := by
          simpa using hh
        by_cases hm : factors.any (fun f => decide (f.severity = .medium)) = true
        · right
          rcases List.any_eq_true.mp hm with ⟨f, hf, hsev⟩
          have hov : calculateOverallRisk factors = .medium := by
            simp [calculateOverallRisk, h0, hc', hh', hm]
          rw [hov]
          exact ⟨f, hf, by simpa using hsev⟩
        · have hm' : factors.any (fun f => decide (f.severity = .medium)) = false := by
            simpa using hm
          left
          simp [calculateOverallRisk, h0, hc', hh', hm']

theorem approvalDecision_low (cfg : AppConfig) (q : QualityEvaluation)
    (a : RiskAssessment) (hq : q.meetsCriteria = true)
    (ha : a.overallRisk = .low) (hr : a.requiresHumanReview = false) :
    approvalDecision cfg q a none = .approved := by
  unfold approvalDecision
  cases hauto : cfg.qualityStandards.autoApproveLowRisk <;>
    simp [hauto, hq, ha, hr]

theorem approvalDecision_medium (cfg : AppConfig) (q : QualityEvaluation)
    (a : RiskAssessment) (hq : q.meetsCriteria = true)
    (ha : a.overallRisk = .medium) (hr : a.requiresHumanReview = false) :
    approvalDecision cfg q a none = .requires_improvement := by
  unfold approvalDecision
  simp [hq, ha, hr]

theorem assessRisk_requiresHumanReview_eq (cfg : AppConfig)
    (report : ExecutionReport) (checks : List RiskCheck) :
    (assessRisk cfg report checks).requiresHumanReview =
      (decide ((assessRisk cfg report checks).overallRisk = .high) ||
       decide ((assessRisk cfg report checks).overallRisk = .critical) ||
       (assessRisk cfg report checks).riskFactors.any
         (fun f => decide (f.severity = .critical))) := rfl

theorem assessRisk_overallRisk_eq (cfg : AppConfig)
    (report : ExecutionReport) (checks : List RiskCheck) :
    (assessRisk cfg report checks).overallRisk =
      calculateOverallRisk (assessRisk cfg report checks).riskFactors := rfl

theorem evaluateQuality_closed_form (report : ExecutionReport)
    (criteria : QualityCriteria) :
    (evaluateQuality report criteria).score =
      max 0 (min 100
        (100
          - 10 * ((criteria.requiredFields.filter
              (fun f => !((extractFields report.output).contains f))).length : Int)
          - 5 * ((formatErrorsOf report criteria).length : Int)
          - 5 * ((contentErrorsOf report criteria).length : Int)
          - 15 * ((report.logs.filter
              (fun log => decide (log.level = .error))).length : Int)))
    ∧ (evaluateQuality report criteria).meetsCriteria =
        decide ((evaluateQuality report criteria).score ≥ criteria.minScore)
    ∧ (evaluateQuality report criteria).missingFields =
        criteria.requiredFields.filter
          (fun f => !((extractFields report.output).contains f)) := by
  have hfold := requiredFields_foldl (extractFields report.output)
    criteria.requiredFields (100, [], [])
  refine ⟨?_, rfl, ?_⟩
  · simp only [evaluateQuality, hfold]
    split_ifs <;> omega
  · simp only [evaluateQuality, hfold, List.nil_append]

theorem processOrderE_empty_oracle (opts : OrderProcessorOptions)
    (exec : OwnerOrder → ExecOutcome) (order : OwnerOrder) (nowFail wc : Nat)
    (orders : List OwnerOrder) (reports : List (String × OrderExecutionResult)) :
    (processOrderE opts exec order nowFail wc ⟨orders, reports, []⟩).2 = none
    ∧ (processOrderE opts exec order nowFail wc ⟨orders, reports, []⟩).1.locksOk
        = [] := by
  cases hexec : exec (startedOrderOf order wc) with
  | success result =>
    simp [processOrderE, hexec, updateOrderE, setReportE, popLock]
  | failure msg =>
    simp [processOrderE, hexec, updateOrderE, popLock]

theorem tickLoop_empty_oracle (opts : OrderProcessorOptions) (workerId : String)
    (exec : OwnerOrder → ExecOutcome) (now nowFail wc : Nat) :
    ∀ (due orders : List OwnerOrder)
      (reports : List (String × OrderExecutionResult)),
      (tickLoop opts workerId exec now nowFail wc due
        ⟨orders, reports, []⟩).2 = none := by
  intro due
  induction due with
  | nil =>
    intro orders reports
    rfl
  | cons order rest ih =>
    intro orders reports
    have hacq : acquireLeaseE ⟨orders, reports, []⟩ order.id workerId
        opts.leaseMs now wc =
        (⟨(acquireLease orders order.id workerId opts.leaseMs now wc).1,
          reports, []⟩,
         Except.ok (acquireLease orders order.id workerId opts.leaseMs now wc).2)
        := rfl
    cases hr : (acquireLease orders order.id workerId opts.leaseMs now wc).2 with
    | none =>
      simp only [tickLoop, hacq, hr]
      exact ih _ _
    | some leased =>
      simp only [tickLoop, hacq, hr]
      obtain ⟨hnone, hlocks⟩ := processOrderE_empty_oracle opts exec leased
        nowFail wc
        (acquireLease orders order.id workerId opts.leaseMs now wc).1 reports
      cases hp : processOrderE opts exec leased nowFail wc
          ⟨(acquireLease orders order.id workerId opts.leaseMs now wc).1,
            reports, []⟩ with
      | mk st2 err =>
        rw [hp] at hnone hlocks
        simp only at hnone hlocks
        subst hnone
        show (tickLoop opts workerId exec now nowFail wc rest st2).2 = none
        have hst : (⟨st2.orders, st2.reports, []⟩ : StoreState) = st2 := by
          rw [← hlocks]
        rw [← hst]
        exact ih _ _

/-- C1: the claim says that when an executor invocation fails with
`attemptCount` at `maxAttempts` (default 10), the processor persists
`status = failed_terminal` with lease fields cleared and retries stop.  The
code has no `maxAttempts` option and `OwnerOrder.status` has no
`failed_terminal` member: every executor failure — including the 10th
consecutive one, evaluated here concretely — persists plain `failed` with a
`nextAttemptAt` retry schedule, so the order is retried forever. -/
theorem C1_failure_always_schedules_retry :
    (∀ (opts : OrderProcessorOptions) (started : OwnerOrder) (msg : String)
        (now wc : Nat),
      (failedOrderOf opts started msg now wc).status = OrderStatus.failed)
    ∧ (processOrderE defaultOptions (fun _ => ExecOutcome.failure "boom")
         exhaustedOrder 1000 1000 ⟨[exhaustedOrder], [], []⟩).2 = none
    ∧ ((processOrderE defaultOptions (fun _ => ExecOutcome.failure "boom")
         exhaustedOrder 1000 1000 ⟨[exhaustedOrder], [], []⟩).1.orders.find?
           (fun o => o.id == "X") = some
         { exhaustedOrder with
             attemptCount := 10
             status := OrderStatus.failed
             lastError := some "boom"
             nextAttemptAt := some 31000
             lockedBy := none
             lockedUntil := none
             updatedAt := some 1000 }) :=
  ⟨fun _ _ _ _ _ => rfl, by decide, by decide⟩

/-- C2: the claim says an order left `in_progress` with an expired lease by
a crashed worker is returned by `getDueOrders` on the next tick and
re-claimed.  In the code `getDueOrders` filters out every `in_progress`
order regardless of lease expiry, so such an order is never returned and
never re-claimed — even though its lease is expired and `acquireLease`
itself would gladly take it over (last conjunct). -/
theorem C2_expired_lease_not_reclaimed :
    (∀ (orders : List OwnerOrder) (now : Nat),
      (getDueOrders orders now).all
        (fun o => decide (o.status ≠ OrderStatus.in_progress)) = true)
    ∧ getDueOrders [crashedOrder] 200 = []
    ∧ isLeaseExpired crashedOrder 200 = true
    ∧ (acquireLease [crashedOrder] "A" "worker-2" 30000 200 200).2 =
        some (leaseUpdate crashedOrder "worker-2" 30000 200 200) := by
  refine ⟨?_, by decide, by decide, by decide⟩
  intro orders now
  rw [List.all_eq_true]
  intro o ho
  simp only [getDueOrders] at ho
  have hdue := List.of_mem_filter ho
  simp only [decide_eq_true_eq]
  intro heq
  simp [isDueOrder, heq] at hdue

/-- C5: at most one live lease per order.  If `acquireLease` succeeds at
`now` with duration `dA`, then any later `acquireLease` on the same order at
a time `nowB < now + dA` (any holder, any duration) returns `null`, because
the stored `lockedUntil = now + dA` has not expired. -/
theorem C5_lease_mutual_exclusion (orders : List OwnerOrder)
    (orderId holderA holderB : String) (dA dB now nowB wcA wcB : Nat)
    (o : OwnerOrder)
    (hA : (acquireLease orders orderId holderA dA now wcA).2 = some o)
    (hB : nowB < now + dA) :
    (acquireLease (acquireLease orders orderId holderA dA now wcA).1
        orderId holderB dB nowB wcB).2 = none := by
  cases hfind : orders.find? (fun x => x.id == orderId) with
  | none =>
    rw [acquireLease_missing orders orderId holderA dA now wcA hfind] at hA
    simp at hA
  | some order =>
    by_cases hexp : isLeaseExpired order now = true
    · by_cases hcomp : order.status = OrderStatus.completed
      · rw [acquireLease_completed orders orderId holderA dA now wcA order
          hfind hcomp] at hA
        simp at hA
      · have hsucc := acquireLease_success orders orderId holderA dA now wcA
          order hfind hexp hcomp
        rw [hsucc]
        have hid : order.id = orderId := by
          have := List.find?_some hfind
          simpa using this
        have hany : orders.any (fun x => x.id == orderId) = true :=
          List.any_eq_true.mpr ⟨order, List.mem_of_find?_eq_some hfind, by simp [hid]⟩
        have hput := find?_storePut_eq orders
          (leaseUpdate order holderA dA now wcA) orderId hid hany
        have hlive : isLeaseExpired (leaseUpdate order holderA dA now wcA) nowB
            = false := by
          simp only [isLeaseExpired, leaseUpdate]
          simp only [Bool.or_eq_false_iff, decide_eq_false_iff_not]
          omega
        rw [acquireLease_not_expired _ orderId holderB dB nowB wcB _ hput hlive]
    · have hexp' : isLeaseExpired order now = false := by
        simpa using hexp
      rw [acquireLease_not_expired orders orderId holderA dA now wcA order
        hfind hexp'] at hA
      simp at hA

/-- C5 witness: worker `w1` leases order `A` for 30s at time 100; a second
acquisition by `w2` at time 200 (inside the lease window) returns `null`. -/
theorem C5_lease_mutual_exclusion_witness :
    (acquireLease (acquireLease [orderA] "A" "w1" 30000 100 100).1
        "A" "w2" 30000 200 200).2 = none :=
  C5_lease_mutual_exclusion [orderA] "A" "w1" "w2" 30000 30000 100 200 100 200
    (leaseUpdate orderA "w1" 30000 100 100) (by decide) (by decide)

/-- C6: `acquireLease` returns `null` exactly when the order is missing,
completed, or carries an unexpired lease (`lockedUntil` present and `> now`);
otherwise it persists and returns the record with `status = in_progress`,
`lockedBy = holder`, `lockedUntil = now + leaseMs` and a bumped `updatedAt`.
In particular a completed order is never re-claimed (third conjunct). -/
theorem C6_acquireLease_contract (orders : List OwnerOrder)
    (orderId holder : String) (leaseMs now wc : Nat) :
    ((acquireLease orders orderId holder leaseMs now wc).2 = none ↔
      (orders.find? (fun o => o.id == orderId) = none ∨
       ∃ order, orders.find? (fun o => o.id == orderId) = some order ∧
         (order.status = OrderStatus.completed ∨
          ∃ l, order.lockedUntil = some l ∧ now < l)))
    ∧ (∀ order, orders.find? (fun o => o.id == orderId) = some order →
        order.status ≠ OrderStatus.completed → isLeaseExpired order now = true →
        acquireLease orders orderId holder leaseMs now wc =
          (storePut orders (leaseUpdate order holder leaseMs now wc),
           some (leaseUpdate order holder leaseMs now wc)))
    ∧ (∀ order, orders.find? (fun o => o.id == orderId) = some order →
        order.status = OrderStatus.completed →
        acquireLease orders orderId holder leaseMs now wc = (orders, none)) := by
  refine ⟨?_, ?_, ?_⟩
  · cases hfind : orders.find? (fun o => o.id == orderId) with
    | none =>
      rw [acquireLease_missing orders orderId holder leaseMs now wc hfind]
      constructor
      · intro _
        exact Or.inl rfl
      · intro _
        rfl
    | some order =>
      by_cases hexp : isLeaseExpired order now = true
      · by_cases hcomp : order.status = OrderStatus.completed
        · rw [acquireLease_completed orders orderId holder leaseMs now wc order
            hfind hcomp]
          constructor
          · intro _
            exact Or.inr ⟨order, rfl, Or.inl hcomp⟩
          · intro _
            rfl
        · rw [acquireLease_success orders orderId holder leaseMs now wc order
            hfind hexp hcomp]
          constructor
          · intro h
            exact absurd h (by simp)
          · rintro (hnone | ⟨order2, hfind2, hrest⟩)
            · exact absurd hnone (by simp)
            · injection hfind2 with heq
              subst heq
              rcases hrest with hcomp2 | ⟨l, hl, hlt⟩
              · exact absurd hcomp2 hcomp
              · have hfalse : isLeaseExpired order now = false :=
                  (isLeaseExpired_eq_false_iff order now).mpr ⟨l, hl, hlt⟩
                rw [hfalse] at hexp
                exact absurd hexp (by simp)
      · have hexp2 : isLeaseExpired order now = false := by
          simpa using hexp
        rw [acquireLease_not_expired orders orderId holder leaseMs now wc order
          hfind hexp2]
        constructor
        · intro _
          rcases (isLeaseExpired_eq_false_iff order now).mp hexp2 with ⟨l, hl, hlt⟩
          exact Or.inr ⟨order, rfl, Or.inr ⟨l, hl, hlt⟩⟩
        · intro _
          rfl
  · intro order hfind hcomp hexp
    exact acquireLease_success orders orderId holder leaseMs now wc order
      hfind hexp hcomp
  · intro order hfind hcomp
    exact acquireLease_completed orders orderId holder leaseMs now wc order
      hfind hcomp

/-- C6 witness: on a store holding only the fresh pending order `A`,
`acquireLease` at time 100 with a 30s lease succeeds and writes holder,
`lockedUntil = 30100` and `status = in_progress`. -/
theorem C6_acquireLease_contract_witness :
    acquireLease [orderA] "A" "w1" 30000 100 100 =
      (storePut [orderA] (leaseUpdate orderA "w1" 30000 100 100),
       some (leaseUpdate orderA "w1" 30000 100 100)) :=
  (C6_acquireLease_contract [orderA] "A" "w1" 30000 100 100).2.1 orderA
    (by decide) (by decide) (by decide)

/-- C7: on executor failure the processor persists (second conjunct shows the
exact pair of store writes) a `failed` record whose `nextAttemptAt` equals
`now + min(retryBaseMs * 2^(n-1), retryMaxMs)` where `n = attemptCount + 1 ≥ 1`
is the attempt just made, and the backoff delta is non-decreasing in `n`. -/
theorem C7_exponential_backoff :
    (∀ (opts : OrderProcessorOptions) (order : OwnerOrder) (msg : String)
        (nowFail wc : Nat) (orders : List OwnerOrder)
        (reports : List (String × OrderExecutionResult)),
      processOrderE opts (fun _ => ExecOutcome.failure msg) order nowFail wc
          ⟨orders, reports, []⟩ =
        (⟨storePut (storePut orders (startedOrderOf order wc))
            (failedOrderOf opts (startedOrderOf order wc) msg nowFail wc),
          reports, []⟩, none))
    ∧ (∀ (opts : OrderProcessorOptions) (order : OwnerOrder) (msg : String)
        (nowFail wc : Nat),
      (failedOrderOf opts (startedOrderOf order wc) msg nowFail wc).nextAttemptAt =
        some (nowFail +
          min (opts.retryBaseMs * 2 ^ (order.attemptCount + 1 - 1)) opts.retryMaxMs))
    ∧ (∀ (opts : OrderProcessorOptions) (n m : Nat), n ≤ m →
        backoffMsOf opts n ≤ backoffMsOf opts m) := by
  refine ⟨fun _ _ _ _ _ _ _ => rfl, fun _ _ _ _ _ => rfl, ?_⟩
  intro opts n m hnm
  unfold backoffMsOf
  exact min_le_min
    (Nat.mul_le_mul le_rfl (Nat.pow_le_pow_right (by norm_num) (by omega)))
    le_rfl

/-- C7 witness: the backoff delta of attempt 3 is at most that of attempt 5
(6000 ≤ 24000 at the defaults). -/
theorem C7_exponential_backoff_witness :
    backoffMsOf defaultOptions 3 ≤ backoffMsOf defaultOptions 5 :=
  C7_exponential_backoff.2.2 defaultOptions 3 5 (by norm_num)

/-- C3 counterexample: a report meeting its quality criteria (score 85 ≥ 70)
whose single detected risk finding is `medium` (risk value 0.5), with human
review not required — the decision chain falls through every branch to the
default and returns `requires_improvement`, not `approved` as claimed. -/
theorem C3_medium_risk_counterexample :
    (processApproval defaultConfig erroredReport okCriteria [errorRiskCheck]
        none).qualityEvaluation.meetsCriteria = true
    ∧ (processApproval defaultConfig erroredReport okCriteria [errorRiskCheck]
        none).riskAssessment.overallRisk = Severity.medium
    ∧ (processApproval defaultConfig erroredReport okCriteria [errorRiskCheck]
        none).riskAssessment.requiresHumanReview = false
    ∧ (processApproval defaultConfig erroredReport okCriteria [errorRiskCheck]
        none).decision = ApprovalDecision.requires_improvement := by
  have hval : calculateRiskValue erroredReport = 1/2 := by
    simp only [calculateRiskValue]
    rw [if_pos (show (erroredReport.logs.any fun log =>
      decide (log.level = LogLevel.error)) = true by decide)]
    rw [if_pos (show erroredReport.executionTimeMs > 300000 by decide)]
    rw [if_neg (show ¬((match erroredReport.output with
      | JsonValue.null => true
      | _ => false) = true) by decide)]
    rw [if_neg (show ¬((jsonStringify erroredReport.output).length > 1000000)
      by decide)]
    norm_num
  have hsev : getSeverityFromValue defaultConfig (1/2) = Severity.medium := by
    unfold getSeverityFromValue
    rw [if_neg (by norm_num [defaultConfig]), if_neg (by norm_num [defaultConfig]),
      if_pos (by norm_num [defaultConfig])]
  have hrun : runRiskCheck defaultConfig erroredReport errorRiskCheck =
      some { type := "error_check", severity := Severity.medium,
             description := "errors in execution logs" } := by
    simp only [runRiskCheck, errorRiskCheck]
    rw [if_pos (by decide)]
    rw [hval]
    rw [if_pos (by norm_num)]
    rw [hsev]
  have hassess : assessRisk defaultConfig erroredReport [errorRiskCheck] =
      { overallRisk := Severity.medium,
        riskFactors := [{ type := "error_check", severity := Severity.medium,
                          description := "errors in execution logs" }],
        recommendations := ["Review and fix errors before proceeding"],
        requiresHumanReview := false } := by
    simp only [assessRisk, List.foldl_cons, List.foldl_nil]
    simp only [hrun]
    decide
  refine ⟨by decide, ?_, ?_, ?_⟩
  · show (assessRisk defaultConfig erroredReport [errorRiskCheck]).overallRisk =
      Severity.medium
    rw [hassess]
  · show (assessRisk defaultConfig erroredReport
        [errorRiskCheck]).requiresHumanReview = false
    rw [hassess]
  · show approvalDecision defaultConfig (evaluateQuality erroredReport okCriteria)
        (assessRisk defaultConfig erroredReport [errorRiskCheck]) none =
      ApprovalDecision.requires_improvement
    rw [hassess]
    decide

/-- C3 (amended): with no human decision, met quality criteria and overall
risk `low`, `processApproval` returns `approved` (for any configuration);
with met criteria and overall risk `medium` it instead returns
`requires_improvement`. -/
theorem C3_low_risk_approved (cfg : AppConfig) (report : ExecutionReport)
    (criteria : QualityCriteria) (checks : List RiskCheck) :
    ((processApproval cfg report criteria checks none).qualityEvaluation.meetsCriteria
        = true →
     (processApproval cfg report criteria checks none).riskAssessment.overallRisk
        = Severity.low →
     (processApproval cfg report criteria checks none).decision
        = ApprovalDecision.approved)
    ∧ ((processApproval cfg report criteria checks none).qualityEvaluation.meetsCriteria
        = true →
     (processApproval cfg report criteria checks none).riskAssessment.overallRisk
        = Severity.medium →
     (processApproval cfg report criteria checks none).decision
        = ApprovalDecision.requires_improvement) := by
  have hdec : (processApproval cfg report criteria checks none).decision =
      approvalDecision cfg (evaluateQuality report criteria)
        (assessRisk cfg report checks) none := rfl
  have hqe : (processApproval cfg report criteria checks none).qualityEvaluation =
      evaluateQuality report criteria := rfl
  have hra : (processApproval cfg report criteria checks none).riskAssessment =
      assessRisk cfg report checks := rfl
  constructor
  · intro hmeets hlow
    rw [hqe] at hmeets
    rw [hra] at hlow
    rw [hdec]
    have hov : calculateOverallRisk (assessRisk cfg report checks).riskFactors
        = Severity.low := by
      rw [← assessRisk_overallRisk_eq]
      exact hlow
    have hnc := no_critical_of_overallRisk_ne
      (assessRisk cfg report checks).riskFactors (by rw [hov]; simp)
    have hrhr : (assessRisk cfg report checks).requiresHumanReview = false := by
      rw [assessRisk_requiresHumanReview_eq, hlow, hnc]
      rfl
    exact approvalDecision_low cfg _ _ hmeets hlow hrhr
  · intro hmeets hmed
    rw [hqe] at hmeets
    rw [hra] at hmed
    rw [hdec]
    have hov : calculateOverallRisk (assessRisk cfg report checks).riskFactors
        = Severity.medium := by
      rw [← assessRisk_overallRisk_eq]
      exact hmed
    have hnc := no_critical_of_overallRisk_ne
      (assessRisk cfg report checks).riskFactors (by rw [hov]; simp)
    have hrhr : (assessRisk cfg report checks).requiresHumanReview = false := by
      rw [assessRisk_requiresHumanReview_eq, hmed, hnc]
      rfl
    exact approvalDecision_medium cfg _ _ hmeets hmed hrhr

/-- C3 witness: a clean report (score 100, no findings) under the default
configuration is approved. -/
theorem C3_low_risk_approved_witness :
    (processApproval defaultConfig cleanReport okCriteria [] none).decision =
      ApprovalDecision.approved :=
  (C3_low_risk_approved defaultConfig cleanReport okCriteria []).1
    (by decide) (by decide)

/-- C4 counterexample: two due pending orders `A`, `B` in one tick; the
store lock acquisition for persisting `A`'s started record times out (second
oracle entry `false`).  The exception propagates out of `processOrder` and
aborts the tick's loop: `B`, although due, is left untouched (`pending`,
`attemptCount 0`), while `A` is stranded `in_progress` holding a lease. -/
theorem C4_lock_timeout_aborts_tick :
    getDueOrders [orderA, orderB] 1000 = [orderA, orderB]
    ∧ (tick defaultOptions "w" (fun _ => ExecOutcome.success sampleResult)
         1000 1000 1000 ⟨[orderA, orderB], [], [true, false]⟩).orders.find?
           (fun o => o.id == "B") = some orderB
    ∧ (tick defaultOptions "w" (fun _ => ExecOutcome.success sampleResult)
         1000 1000 1000 ⟨[orderA, orderB], [], [true, false]⟩).orders.find?
           (fun o => o.id == "A") =
         some (leaseUpdate orderA "w" 30000 1000 1000) := by
  refine ⟨by decide, by decide, by decide⟩

/-- C4 (amended): an executor failure on one order is caught inside
`processOrder`, recorded in `lastError`, and does not prevent the remaining
due orders of the same tick from being processed — universally: whenever no
store lock acquisition times out, the tick's per-order loop runs to the end
for every options record, worker, executor, clock and store state (first
conjunct, with the due list arbitrary — in particular `getDueOrders`),
because `processOrder` never lets any executor outcome escape (second
conjunct) and records a failure's message in `lastError` (third conjunct);
the fourth conjunct instantiates this on a two-order tick where `A`'s
executor fails and `B` still completes.  (Only store lock timeouts escape
`processOrder` and abort the loop, as the counterexample shows; the
tick-level catch then stops the error from escalating further.) -/
theorem C4_executor_failures_isolated :
    (∀ (opts : OrderProcessorOptions) (workerId : String)
        (exec : OwnerOrder → ExecOutcome) (now nowFail wc : Nat)
        (due orders : List OwnerOrder)
        (reports : List (String × OrderExecutionResult)),
      (tickLoop opts workerId exec now nowFail wc due
        ⟨orders, reports, []⟩).2 = none)
    ∧ (∀ (opts : OrderProcessorOptions) (exec : OwnerOrder → ExecOutcome)
        (order : OwnerOrder) (nowFail wc : Nat) (orders : List OwnerOrder)
        (reports : List (String × OrderExecutionResult)),
      (processOrderE opts exec order nowFail wc ⟨orders, reports, []⟩).2 = none)
    ∧ (∀ (opts : OrderProcessorOptions) (started : OwnerOrder) (msg : String)
        (now wc : Nat),
      (failedOrderOf opts started msg now wc).lastError = some msg)
    ∧ (∀ (msg : String) (result : AutonomousOrderResult),
      ((tick defaultOptions "w"
          (fun o => if o.id == "A" then ExecOutcome.failure msg
                    else ExecOutcome.success result)
          1000 2000 1000 ⟨[orderA, orderB], [], []⟩).orders.find?
            (fun o => o.id == "A")).map (fun o => (o.status, o.lastError)) =
        some (OrderStatus.failed, some msg)
      ∧ ((tick defaultOptions "w"
          (fun o => if o.id == "A" then ExecOutcome.failure msg
                    else ExecOutcome.success result)
          1000 2000 1000 ⟨[orderA, orderB], [], []⟩).orders.find?
            (fun o => o.id == "B")).map (fun o => o.status) =
        some OrderStatus.completed) :=
  ⟨fun opts workerId exec now nowFail wc due orders reports =>
      tickLoop_empty_oracle opts workerId exec now nowFail wc due orders reports,
   fun opts exec order nowFail wc orders reports =>
      (processOrderE_empty_oracle opts exec order nowFail wc orders reports).1,
   fun _ _ _ _ _ => rfl,
   fun _ _ => ⟨rfl, rfl⟩⟩

/-- C8: `evaluateQuality` starts at 100 and subtracts 10 per required field
absent from the output, 5 per unmet format requirement, 5 per missing
content requirement and 15 per error-level log line, clamps to `[0, 100]`,
and sets `meetsCriteria` iff the clamped score reaches `minScore`; the
scenario output `{}` under `{minScore: 90, requiredFields: [a,b,c]}` scores
exactly 70, fails the criteria, and the decision is `requires_improvement`. -/
theorem C8_quality_penalties :
    (∀ (report : ExecutionReport) (criteria : QualityCriteria),
      (evaluateQuality report criteria).score =
        max 0 (min 100
          (100
            - 10 * ((criteria.requiredFields.filter
                (fun f => !((extractFields report.output).contains f))).length : Int)
            - 5 * ((formatErrorsOf report criteria).length : Int)
            - 5 * ((contentErrorsOf report criteria).length : Int)
            - 15 * ((report.logs.filter
                (fun log => decide (log.level = .error))).length : Int)))
      ∧ (evaluateQuality report criteria).meetsCriteria =
          decide ((evaluateQuality report criteria).score ≥ criteria.minScore))
    ∧ ((evaluateQuality emptyOutputReport strictCriteria).score = 70
       ∧ (evaluateQuality emptyOutputReport strictCriteria).score ≤ 70
       ∧ (evaluateQuality emptyOutputReport strictCriteria).meetsCriteria = false
       ∧ (processApproval defaultConfig emptyOutputReport strictCriteria []
           none).decision = ApprovalDecision.requires_improvement) := by
  constructor
  · intro report criteria
    exact ⟨(evaluateQuality_closed_form report criteria).1,
           (evaluateQuality_closed_form report criteria).2.1⟩
  · refine ⟨by decide, by decide, by decide, by decide⟩

/-- C9: `assessRisk` returns as `overallRisk` the maximum severity over the
detected findings (an upper bound that is attained, and `low` when there are
no findings), and `requiresHumanReview` holds iff the overall risk is high
or critical or some finding is critical. -/
theorem C9_overall_risk_is_max (cfg : AppConfig) (report : ExecutionReport)
    (checks : List RiskCheck) :
    (∀ f ∈ (assessRisk cfg report checks).riskFactors,
      sevRank f.severity ≤ sevRank (assessRisk cfg report checks).overallRisk)
    ∧ ((assessRisk cfg report checks).overallRisk = Severity.low ∨
       ∃ f ∈ (assessRisk cfg report checks).riskFactors,
         f.severity = (assessRisk cfg report checks).overallRisk)
    ∧ ((assessRisk cfg report checks).riskFactors = [] →
       (assessRisk cfg report checks).overallRisk = Severity.low)
    ∧ ((assessRisk cfg report checks).requiresHumanReview = true ↔
       ((assessRisk cfg report checks).overallRisk = Severity.high ∨
        (assessRisk cfg report checks).overallRisk = Severity.critical ∨
        ∃ f ∈ (assessRisk cfg report checks).riskFactors,
          f.severity = Severity.critical)) := by
  refine ⟨?_, ?_, ?_, ?_⟩
  · rw [assessRisk_overallRisk_eq]
    exact overallRisk_upper _
  · rw [assessRisk_overallRisk_eq]
    exact overallRisk_attained _
  · intro h
    rw [assessRisk_overallRisk_eq, h]
    decide
  · rw [assessRisk_requiresHumanReview_eq]
    simp only [Bool.or_eq_true, decide_eq_true_eq, List.any_eq_true]
    exact or_assoc

/-- C9 witness: with no configured checks there are no findings and the
overall risk is `low`. -/
theorem C9_overall_risk_is_max_witness :
    (assessRisk defaultConfig cleanReport []).overallRisk = Severity.low :=
  (C9_overall_risk_is_max defaultConfig cleanReport []).2.2.1 (by decide)

/-- C10: `extractFields` judges a non-empty array output by its first
element alone, and an empty array — like any non-object output — yields no
fields, so under a policy with only required fields every one of them is
counted missing and penalized. -/
theorem C10_array_first_element_only :
    (∀ (v : JsonValue) (rest : List JsonValue),
      extractFields (JsonValue.arr (v :: rest)) = extractFields v)
    ∧ (∀ (fields : List (String × JsonValue)) (rest : List JsonValue),
      extractFields (JsonValue.arr (JsonValue.obj fields :: rest)) =
        fields.map (fun f => f.1))
    ∧ extractFields (JsonValue.arr []) = []
    ∧ extractFields JsonValue.null = []
    ∧ (∀ (report : ExecutionReport) (criteria : QualityCriteria),
        report.output = JsonValue.arr [] →
        (evaluateQuality report criteria).missingFields = criteria.requiredFields
        ∧ (evaluateQuality report criteria).score ≤
            max 0 (min 100 (100 - 10 * (criteria.requiredFields.length : Int)))) := by
  refine ⟨fun _ _ => rfl, fun _ _ => rfl, rfl, rfl, ?_⟩
  intro report criteria hout
  have hcf := evaluateQuality_closed_form report criteria
  have hfields : extractFields report.output = [] := by
    rw [hout]
    rfl
  constructor
  · rw [hcf.2.2, hfields]
    simp
  · rw [hcf.1, hfields]
    have hlen : (criteria.requiredFields.filter
        (fun f => !(([] : List String).contains f))).length =
        criteria.requiredFields.length := by
      simp
    rw [hlen]
    omega

/-- C10 witness: a report whose output is the empty array, under the
`{minScore: 90, requiredFields: [a,b,c]}` policy, has all three fields
missing and a score bounded by 70. -/
theorem C10_array_first_element_only_witness :
    (evaluateQuality arrayOutputReport strictCriteria).missingFields =
      strictCriteria.requiredFields
    ∧ (evaluateQuality arrayOutputReport strictCriteria).score ≤
        max 0 (min 100 (100 - 10 * (strictCriteria.requiredFields.length : Int))) :=
  C10_array_first_element_only.2.2.2.2 arrayOutputReport strictCriteria rfl

end CEOBitch
